import Mathlib

/-!
Shallow embedding of the plugin-provisioning orchestrator
(pkg/plugins/plugins.go): reference validation, the remote provisioning
pipeline, and the local manifest validator.

The Go map of aliases to descriptors is modelled as an association list in
iteration order (Go map keys are unique; where a claim needs this, the
theorem assumes the alias list has no duplicates).  The external Client is
modelled as a record of response oracles; every call the pipeline makes is
recorded in a trace, so claims about which calls occur (and with which
arguments) can be stated.  An Option String result models a Go error value:
none is the nil error, some e carries the message.
-/

/-- A remote plugin reference (Go struct Descriptor): the module name, the
version, and whether a provisioning failure must abort the whole run. -/
structure Descriptor where
  ModuleName : String
  Version : String
  Required : Bool
deriving DecidableEq, Repr

/-- A reference mapping: alias to descriptor entries, in iteration order. -/
abbrev PluginMap := List (String × Descriptor)

/-- An observable call to the external Client, with its arguments.  ResetAll
takes no argument; its own result is ignored by the pipeline, so no oracle
for it is needed. -/
inductive Call where
  | cleanArchives (m : PluginMap)
  | download (moduleName version : String)
  | check (moduleName version hash : String)
  | unzip (moduleName version : String)
  | resetAll
  | writeState (m : PluginMap)
deriving DecidableEq, Repr

/-- The external Client collaborator as response oracles: none means the call
succeeds (nil error), some e that it fails with message e; download returns
the content hash on success. -/
structure Client where
  cleanArchives : PluginMap → Option String
  download : String → String → Except String String
  check : String → String → String → Option String
  unzip : String → String → Option String
  writeState : PluginMap → Option String

/-- The missing-name violation message of reference validation. -/
def missingNameMsg (pAlias : String) : String :=
  pAlias ++ ": plugin name is missing"

/-- The missing-version violation message of reference validation. -/
def missingVersionMsg (pAlias : String) : String :=
  pAlias ++ ": plugin version is missing"

/-- The name-shape violation message of reference validation. -/
def shapeMsg (pAlias : String) : String :=
  pAlias ++ ": plugin name should not start or end with a /"

/-- The duplicate-module violation message of reference validation. -/
def dupMsg (moduleName : String) : String :=
  "only one version of a plugin is allowed, there is a duplicate of " ++ moduleName

/-- Whether a module name starts or ends with the path separator: Go
strings.HasPrefix(name, "/") and strings.HasSuffix(name, "/"); with the
single-character separator these are exactly a first-character and
last-character test. -/
def badShape (moduleName : String) : Bool :=
  moduleName.data.head? = some '/' || moduleName.data.getLast? = some '/'

/-- The messages the first two checks (missing name, missing version, which
always run) append for one entry. -/
def entryMsgs (pAlias : String) (d : Descriptor) : List String :=
  (if d.ModuleName = "" then [missingNameMsg pAlias] else [])
  ++ (if d.Version = "" then [missingVersionMsg pAlias] else [])

/-- The validation loop of checkRemotePluginsConfiguration: threads the
accumulated error messages and the uniqueness set (uniq) through the entries,
returning both.  Mirrors the Go loop: missing-name and missing-version checks
always run; a name-shape violation (leading or trailing separator) appends its
message and skips the rest of the entry; a duplicate module name appends its
message and skips the rest; otherwise the module name is registered in uniq. -/
def checkLoop : List String → List String → PluginMap → List String × List String
  | uniq, errs, [] => (errs, uniq)
  | uniq, errs, (pAlias, d) :: rest =>
    if badShape d.ModuleName then
      checkLoop uniq (errs ++ entryMsgs pAlias d ++ [shapeMsg pAlias]) rest
    else if uniq.contains d.ModuleName then
      checkLoop uniq (errs ++ entryMsgs pAlias d ++ [dupMsg d.ModuleName]) rest
    else
      checkLoop (d.ModuleName :: uniq) (errs ++ entryMsgs pAlias d) rest

/-- The list of violation messages reference validation reports for a
mapping, in iteration order. -/
def checkErrs (plugins : PluginMap) : List String :=
  (checkLoop [] [] plugins).1

/-- checkRemotePluginsConfiguration: nil error when no violation is found
(this covers the Go nil-map early return, which iterates zero entries),
otherwise one error joining every message found. -/
def checkRemotePluginsConfiguration (plugins : PluginMap) : Option String :=
  if (checkErrs plugins).isEmpty then none
  else some (String.intercalate ": " (checkErrs plugins))

/-- Outcome of processing one reference in the remote pipeline loop: ok
(all three sub-steps succeeded), skip (a sub-step failed for a non-required
reference: the alias is recorded unavailable and processing continues), or
fail with the wrapped error (a sub-step failed for a required reference). -/
inductive StepResult where
  | ok
  | skip
  | fail (msg : String)
deriving DecidableEq, Repr

/-- Processing of a single reference in SetupRemotePlugins: download, then
integrity check against the returned hash, then unzip; on any failure the
pipeline calls ResetAll (best effort, result ignored) and either skips the
reference (non-required) or aborts with the wrapped error (required).
Returns the Client calls made and the outcome. -/
def processOne (client : Client) (d : Descriptor) : List Call × StepResult :=
  match client.download d.ModuleName d.Version with
  | .error e =>
    ([Call.download d.ModuleName d.Version, Call.resetAll],
     if !d.Required then StepResult.skip
     else StepResult.fail ("unable to download plugin " ++ d.ModuleName ++ ": " ++ e))
  | .ok hash =>
    match client.check d.ModuleName d.Version hash with
    | some e =>
      ([Call.download d.ModuleName d.Version, Call.check d.ModuleName d.Version hash, Call.resetAll],
       if !d.Required then StepResult.skip
       else StepResult.fail ("unable to check archive integrity of the plugin " ++ d.ModuleName ++ ": " ++ e))
    | none =>
      match client.unzip d.ModuleName d.Version with
      | some e =>
        ([Call.download d.ModuleName d.Version, Call.check d.ModuleName d.Version hash,
          Call.unzip d.ModuleName d.Version, Call.resetAll],
         if !d.Required then StepResult.skip
         else StepResult.fail ("unable to unzip archive: " ++ e))
      | none =>
        ([Call.download d.ModuleName d.Version, Call.check d.ModuleName d.Version hash,
          Call.unzip d.ModuleName d.Version], StepResult.ok)

/-- The per-reference loop of SetupRemotePlugins over the mapping in
iteration order: returns the Client calls made and either the list of
unavailable aliases in order (loop completed) or the wrapped error of the
first required reference that failed (loop aborted). -/
def setupLoop (client : Client) : PluginMap → List Call × (List String ⊕ String)
  | [] => ([], Sum.inl [])
  | (pAlias, d) :: rest =>
    match processOne client d with
    | (calls, StepResult.fail msg) => (calls, Sum.inr msg)
    | (calls, StepResult.ok) =>
      let r := setupLoop client rest
      (calls ++ r.1, r.2)
    | (calls, StepResult.skip) =>
      let r := setupLoop client rest
      (calls ++ r.1,
       match r.2 with
       | Sum.inl un => Sum.inl (pAlias :: un)
       | Sum.inr m => Sum.inr m)

/-- The observable outcome of one SetupRemotePlugins run: the returned error
(none on success), the caller's mapping after the call (the Go code deletes
unavailable aliases from the caller's map in place), and the trace of Client
calls in order. -/
structure RunResult where
  result : Option String
  finalMap : PluginMap
  trace : List Call
deriving DecidableEq, Repr

/-- SetupRemotePlugins: validate the configuration (no Client call on
violation); clean stale archives (fatal on failure); run the per-reference
loop; delete every unavailable alias from the mapping; persist the surviving
mapping via WriteState (ResetAll and fatal error on failure). -/
def SetupRemotePlugins (client : Client) (plugins : PluginMap) : RunResult :=
  match checkRemotePluginsConfiguration plugins with
  | some err =>
    { result := some ("invalid configuration: " ++ err), finalMap := plugins, trace := [] }
  | none =>
    match client.cleanArchives plugins with
    | some err =>
      { result := some ("unable to clean archives: " ++ err), finalMap := plugins,
        trace := [Call.cleanArchives plugins] }
    | none =>
      match setupLoop client plugins with
      | (calls, Sum.inr msg) =>
        { result := some msg, finalMap := plugins, trace := Call.cleanArchives plugins :: calls }
      | (calls, Sum.inl unavailable) =>
        let survived := plugins.filter (fun p => !(unavailable.contains p.1))
        match client.writeState survived with
        | some err =>
          { result := some ("unable to write plugins state: " ++ err), finalMap := survived,
            trace := Call.cleanArchives plugins :: calls ++ [Call.writeState survived, Call.resetAll] }
        | none =>
          { result := none, finalMap := survived,
            trace := Call.cleanArchives plugins :: calls ++ [Call.writeState survived] }

/-- The arguments of the WriteState calls occurring in a trace, in order. -/
def writeStateCalls (t : List Call) : List PluginMap :=
  t.filterMap (fun c => match c with | Call.writeState m => some m | _ => none)

/-- Modelled from the spec: the plugin type constants (their definitions are
outside src).  Spec data model: type is one of middleware, provider. -/
def typeMiddleware : String := "middleware"

/-- Modelled from the spec: the provider plugin type constant (outside src). -/
def typeProvider : String := "provider"

/-- Modelled from the spec: the interpreted-runtime constant (the Go
runtimeYaegi constant is outside src); spec runtime enum value interpreted. -/
def runtimeYaegi : String := "interpreted"

/-- Modelled from the spec: the sandboxed-bytecode runtime constant (the Go
runtimeWasm constant is outside src); spec runtime enum value
sandboxed-bytecode. -/
def runtimeWasm : String := "sandboxed-bytecode"

/-- A local plugin manifest (the Go Manifest struct is outside src; fields per
the spec data model): type, runtime, import path, display name, summary, and
the test-data blob whose presence alone is checked. -/
structure Manifest where
  mType : String
  Runtime : String
  Import : String
  DisplayName : String
  Summary : String
  TestData : Option Unit
deriving DecidableEq, Repr

/-- Modelled from the spec: the manifest marker condition for being an
interpreted plugin (the Go Manifest.IsYaegiPlugin method is outside src);
spec 4.3 gives the condition runtime = interpreted. -/
def Manifest.IsYaegiPlugin (m : Manifest) : Bool :=
  m.Runtime == runtimeYaegi

/-- A manifest violation recorded by checkLocalPluginManifest, one
constructor per multierror entry the Go code appends, carrying the data the
corresponding message formats. -/
inductive ManifestViolation where
  | unsupportedRuntime (moduleName runtime : String)
  | unsupportedType (moduleName mType : String)
  | missingImport (moduleName : String)
  | importMismatch (importPath moduleName : String)
  | missingDisplayName (moduleName : String)
  | missingSummary (moduleName : String)
  | missingTestData (moduleName : String)
deriving DecidableEq, Repr

/-- The manifest validation of checkLocalPluginManifest after ReadManifest
has succeeded (ReadManifest is an external collaborator): the type switch
with its type-dependent runtime compatibility check, then the
interpreted-import checks, then the required metadata fields; the list mirrors the
multierror accumulator in append order. -/
def checkLoadedManifest (moduleName : String) (m : Manifest) : List ManifestViolation :=
  (if m.mType = typeMiddleware then
    (if m.Runtime ≠ runtimeYaegi ∧ m.Runtime ≠ runtimeWasm ∧ m.Runtime ≠ "" then
      [ManifestViolation.unsupportedRuntime moduleName m.Runtime]
     else [])
   else if m.mType = typeProvider then
    (if m.Runtime ≠ runtimeYaegi ∧ m.Runtime ≠ "" then
      [ManifestViolation.unsupportedRuntime moduleName m.Runtime]
     else [])
   else [ManifestViolation.unsupportedType moduleName m.mType])
  ++ (if m.IsYaegiPlugin then
       (if m.Import = "" then [ManifestViolation.missingImport moduleName] else [])
       ++ (if !(moduleName.data.isPrefixOf m.Import.data) then
            [ManifestViolation.importMismatch m.Import moduleName]
           else [])
      else [])
  ++ (if m.DisplayName = "" then [ManifestViolation.missingDisplayName moduleName] else [])
  ++ (if m.Summary = "" then [ManifestViolation.missingSummary moduleName] else [])
  ++ (if m.TestData = none then [ManifestViolation.missingTestData moduleName] else [])

/-- Whether a manifest violation is an unsupported-runtime violation. -/
def isRuntimeViolation : ManifestViolation → Bool
  | ManifestViolation.unsupportedRuntime _ _ => true
  | _ => false

/-- A Client whose every call succeeds (downloads return hash h1). -/
def okClient : Client where
  cleanArchives := fun _ => none
  download := fun _ _ => Except.ok "h1"
  check := fun _ _ _ => none
  unzip := fun _ _ => none
  writeState := fun _ => none

/-- A Client like okClient except that every Download call fails. -/
def dlFailClient : Client :=
  { okClient with download := fun _ _ => Except.error "boom" }

/-- A Client like okClient except that the integrity check of module bad
fails. -/
def checkFailClient : Client :=
  { okClient with check := fun moduleName _ _ =>
      if moduleName = "bad" then some "corrupt" else none }

/-- A one-entry mapping with a required reference. -/
def mapReq : PluginMap := [("a", ⟨"foo", "v1", true⟩)]

/-- A one-entry mapping with a non-required reference. -/
def mapOpt : PluginMap := [("a", ⟨"foo", "v1", false⟩)]

/-- A two-entry mapping whose entries share the module name foo. -/
def mapDup : PluginMap := [("a", ⟨"foo", "v1", true⟩), ("b", ⟨"foo", "v2", false⟩)]

/-- A three-entry mapping whose middle entry is the non-required module bad. -/
def mapMix : PluginMap :=
  [("a", ⟨"foo", "v1", true⟩), ("b", ⟨"bad", "v1", false⟩), ("c", ⟨"baz", "v2", true⟩)]

/-! Helper lemmas about the validation loop. -/

theorem contains_iff_mem_str (l : List String) (x : String) :
    l.contains x = true ↔ x ∈ l := by
  simp [List.contains, List.elem_iff]

theorem checkLoop_cons_shape (uniq errs : List String) (pAlias : String) (d : Descriptor)
    (rest : PluginMap) (h : badShape d.ModuleName = true) :
    checkLoop uniq errs ((pAlias, d) :: rest)
      = checkLoop uniq (errs ++ entryMsgs pAlias d ++ [shapeMsg pAlias]) rest := by
  simp [checkLoop, h]

theorem checkLoop_cons_dup (uniq errs : List String) (pAlias : String) (d : Descriptor)
    (rest : PluginMap) (hb : badShape d.ModuleName = false) (hu : d.ModuleName ∈ uniq) :
    checkLoop uniq errs ((pAlias, d) :: rest)
      = checkLoop uniq (errs ++ entryMsgs pAlias d ++ [dupMsg d.ModuleName]) rest := by
  simp [checkLoop, hb, hu, (contains_iff_mem_str uniq d.ModuleName).mpr hu]

theorem checkLoop_cons_new (uniq errs : List String) (pAlias : String) (d : Descriptor)
    (rest : PluginMap) (hb : badShape d.ModuleName = false) (hu : d.ModuleName ∉ uniq) :
    checkLoop uniq errs ((pAlias, d) :: rest)
      = checkLoop (d.ModuleName :: uniq) (errs ++ entryMsgs pAlias d) rest := by
  have h2 : uniq.contains d.ModuleName = false := by
    rcases hc : uniq.contains d.ModuleName with _ | _
    · rfl
    · exact absurd ((contains_iff_mem_str _ _).mp hc) hu
  simp [checkLoop, hb, h2, hu]

theorem checkLoop_split : ∀ (l : PluginMap) (uniq errs1 errs2 : List String),
    checkLoop uniq (errs1 ++ errs2) l
      = (errs1 ++ (checkLoop uniq errs2 l).1, (checkLoop uniq errs2 l).2) := by
  intro l
  induction l with
  | nil => intro uniq e1 e2; simp [checkLoop]
  | cons p rest ih =>
    intro uniq e1 e2
    obtain ⟨pAlias, d⟩ := p
    rcases h1 : badShape d.ModuleName with _ | _
    · by_cases h2 : d.ModuleName ∈ uniq
      · rw [checkLoop_cons_dup _ _ _ _ _ h1 h2, checkLoop_cons_dup _ _ _ _ _ h1 h2,
          List.append_assoc, List.append_assoc, ih]
        simp [List.append_assoc]
      · rw [checkLoop_cons_new _ _ _ _ _ h1 h2, checkLoop_cons_new _ _ _ _ _ h1 h2,
          List.append_assoc, ih]
    · rw [checkLoop_cons_shape _ _ _ _ _ h1, checkLoop_cons_shape _ _ _ _ _ h1,
        List.append_assoc, List.append_assoc, ih]
      simp [List.append_assoc]

theorem checkLoop_acc (l : PluginMap) (uniq errs : List String) :
    checkLoop uniq errs l = (errs ++ (checkLoop uniq [] l).1, (checkLoop uniq [] l).2) := by
  have h := checkLoop_split l uniq errs []
  rwa [List.append_nil] at h

theorem checkLoop_errs_mem (l : PluginMap) (uniq errs : List String) (msg : String)
    (h : msg ∈ errs) : msg ∈ (checkLoop uniq errs l).1 := by
  rw [checkLoop_acc]
  exact List.mem_append_left _ h

theorem checkLoop_append : ∀ (l1 l2 : PluginMap) (uniq errs : List String),
    checkLoop uniq errs (l1 ++ l2)
      = checkLoop (checkLoop uniq errs l1).2 (checkLoop uniq errs l1).1 l2 := by
  intro l1
  induction l1 with
  | nil => intro l2 uniq errs; simp [checkLoop]
  | cons p rest ih =>
    intro l2 uniq errs
    obtain ⟨pAlias, d⟩ := p
    rcases h7 : badShape d.ModuleName with _ | _
    · by_cases h2 : d.ModuleName ∈ uniq
      · rw [List.cons_append, checkLoop_cons_dup _ _ _ _ _ h7 h2,
          checkLoop_cons_dup _ _ _ _ _ h7 h2, ih]
      · rw [List.cons_append, checkLoop_cons_new _ _ _ _ _ h7 h2,
          checkLoop_cons_new _ _ _ _ _ h7 h2, ih]
    · rw [List.cons_append, checkLoop_cons_shape _ _ _ _ _ h7,
        checkLoop_cons_shape _ _ _ _ _ h7, ih]

theorem checkLoop_uniq_mono : ∀ (l : PluginMap) (uniq errs : List String) (x : String),
    x ∈ uniq → x ∈ (checkLoop uniq errs l).2 := by
  intro l
  induction l with
  | nil => intro uniq errs x hx; simpa [checkLoop] using hx
  | cons p rest ih =>
    intro uniq errs x hx
    obtain ⟨pAlias, d⟩ := p
    rcases h1 : badShape d.ModuleName with _ | _
    · by_cases h2 : d.ModuleName ∈ uniq
      · rw [checkLoop_cons_dup _ _ _ _ _ h1 h2]
        exact ih _ _ _ hx
      · rw [checkLoop_cons_new _ _ _ _ _ h1 h2]
        exact ih _ _ _ (List.mem_cons_of_mem _ hx)
    · rw [checkLoop_cons_shape _ _ _ _ _ h1]
      exact ih _ _ _ hx

theorem checkLoop_step_emptyName (uniq errs : List String) (pAlias : String) (d : Descriptor)
    (rest : PluginMap) (h : d.ModuleName = "") :
    ∃ u e, checkLoop uniq errs ((pAlias, d) :: rest) = checkLoop u e rest
      ∧ "" ∈ u ∧ missingNameMsg pAlias ∈ e := by
  have hb : badShape d.ModuleName = false := by rw [h]; decide
  by_cases h2 : d.ModuleName ∈ uniq
  · refine ⟨uniq, errs ++ entryMsgs pAlias d ++ [dupMsg d.ModuleName],
      checkLoop_cons_dup _ _ _ _ _ hb h2, ?_, ?_⟩
    · rwa [h] at h2
    · simp [entryMsgs, h]
  · refine ⟨d.ModuleName :: uniq, errs ++ entryMsgs pAlias d,
      checkLoop_cons_new _ _ _ _ _ hb h2, ?_, ?_⟩
    · rw [h]; exact List.mem_cons_self _ _
    · simp [entryMsgs, h]

/-! Helper lemmas about the remote provisioning loop. -/

theorem processOne_of_success (client : Client) (d : Descriptor) (hash : String)
    (hd : client.download d.ModuleName d.Version = Except.ok hash)
    (hc : client.check d.ModuleName d.Version hash = none)
    (hu : client.unzip d.ModuleName d.Version = none) :
    processOne client d
      = ([Call.download d.ModuleName d.Version, Call.check d.ModuleName d.Version hash,
          Call.unzip d.ModuleName d.Version], StepResult.ok) := by
  simp [processOne, hd, hc, hu]

theorem processOne_dl_fail_req (client : Client) (d : Descriptor) (e : String)
    (hd : client.download d.ModuleName d.Version = Except.error e)
    (hreq : d.Required = true) :
    processOne client d
      = ([Call.download d.ModuleName d.Version, Call.resetAll],
         StepResult.fail ("unable to download plugin " ++ d.ModuleName ++ ": " ++ e)) := by
  simp [processOne, hd, hreq]

theorem processOne_check_fail_opt (client : Client) (d : Descriptor) (hash e : String)
    (hd : client.download d.ModuleName d.Version = Except.ok hash)
    (hc : client.check d.ModuleName d.Version hash = some e)
    (hreq : d.Required = false) :
    processOne client d
      = ([Call.download d.ModuleName d.Version, Call.check d.ModuleName d.Version hash,
          Call.resetAll], StepResult.skip) := by
  simp [processOne, hd, hc, hreq]

theorem processOne_ok_iff (client : Client) (d : Descriptor) :
    (processOne client d).2 = StepResult.ok ↔
      ∃ hash, client.download d.ModuleName d.Version = Except.ok hash
        ∧ client.check d.ModuleName d.Version hash = none
        ∧ client.unzip d.ModuleName d.Version = none := by
  constructor
  · intro h
    rcases hd : client.download d.ModuleName d.Version with e | hash
    · simp only [processOne, hd] at h
      split at h <;> simp at h
    · rcases hc : client.check d.ModuleName d.Version hash with _ | e
      · rcases hu : client.unzip d.ModuleName d.Version with _ | e
        · exact ⟨hash, rfl, hc, rfl⟩
        · simp only [processOne, hd, hc, hu] at h
          split at h <;> simp at h
      · simp only [processOne, hd, hc] at h
        split at h <;> simp at h
  · rintro ⟨hash, hd, hc, hu⟩
    rw [processOne_of_success client d hash hd hc hu]

theorem processOne_ok_calls (client : Client) (d : Descriptor)
    (h : (processOne client d).2 = StepResult.ok) :
    ∃ hash, client.download d.ModuleName d.Version = Except.ok hash
      ∧ client.check d.ModuleName d.Version hash = none
      ∧ client.unzip d.ModuleName d.Version = none
      ∧ (processOne client d).1
          = [Call.download d.ModuleName d.Version, Call.check d.ModuleName d.Version hash,
             Call.unzip d.ModuleName d.Version] := by
  obtain ⟨hash, hd, hc, hu⟩ := (processOne_ok_iff client d).mp h
  exact ⟨hash, hd, hc, hu, by rw [processOne_of_success client d hash hd hc hu]⟩

theorem processOne_fail_resetAll (client : Client) (d : Descriptor) (msg : String)
    (h : (processOne client d).2 = StepResult.fail msg) :
    Call.resetAll ∈ (processOne client d).1 := by
  rcases hd : client.download d.ModuleName d.Version with e | hash
  · simp [processOne, hd]
  · rcases hc : client.check d.ModuleName d.Version hash with _ | e
    · rcases hu : client.unzip d.ModuleName d.Version with _ | e
      · rw [processOne_of_success client d hash hd hc hu] at h
        simp at h
      · simp [processOne, hd, hc, hu]
    · simp [processOne, hd, hc]

theorem processOne_no_writeState (client : Client) (d : Descriptor) (m : PluginMap) :
    Call.writeState m ∉ (processOne client d).1 := by
  rcases hd : client.download d.ModuleName d.Version with e | hash
  · simp [processOne, hd]
  · rcases hc : client.check d.ModuleName d.Version hash with _ | e
    · rcases hu : client.unzip d.ModuleName d.Version with _ | e <;>
        simp [processOne, hd, hc, hu]
    · simp [processOne, hd, hc]

theorem setupLoop_cons_ok (client : Client) (pAlias : String) (d : Descriptor)
    (rest : PluginMap) (calls : List Call)
    (hp : processOne client d = (calls, StepResult.ok)) :
    setupLoop client ((pAlias, d) :: rest)
      = (calls ++ (setupLoop client rest).1, (setupLoop client rest).2) := by
  simp [setupLoop, hp]

theorem setupLoop_cons_skip (client : Client) (pAlias : String) (d : Descriptor)
    (rest : PluginMap) (calls : List Call)
    (hp : processOne client d = (calls, StepResult.skip)) :
    setupLoop client ((pAlias, d) :: rest)
      = (calls ++ (setupLoop client rest).1,
         match (setupLoop client rest).2 with
         | Sum.inl un => Sum.inl (pAlias :: un)
         | Sum.inr m => Sum.inr m) := by
  simp [setupLoop, hp]

theorem setupLoop_cons_fail (client : Client) (pAlias : String) (d : Descriptor)
    (rest : PluginMap) (calls : List Call) (msg : String)
    (hp : processOne client d = (calls, StepResult.fail msg)) :
    setupLoop client ((pAlias, d) :: rest) = (calls, Sum.inr msg) := by
  simp [setupLoop, hp]

theorem setupLoop_no_writeState (client : Client) : ∀ (l : PluginMap) (m : PluginMap),
    Call.writeState m ∉ (setupLoop client l).1 := by
  intro l
  induction l with
  | nil => intro m; simp [setupLoop]
  | cons p rest ih =>
    intro m
    obtain ⟨pAlias, d⟩ := p
    have hpo := processOne_no_writeState client d m
    rcases hp : processOne client d with ⟨calls, sr⟩
    rw [hp] at hpo
    rcases sr with _ | _ | msg
    · rw [setupLoop_cons_ok client pAlias d rest calls hp, List.mem_append]
      rintro (h | h)
      · exact hpo h
      · exact ih m h
    · rw [setupLoop_cons_skip client pAlias d rest calls hp, List.mem_append]
      rintro (h | h)
      · exact hpo h
      · exact ih m h
    · rw [setupLoop_cons_fail client pAlias d rest calls msg hp]
      exact hpo

theorem setupLoop_all_ok (client : Client) : ∀ (l : PluginMap),
    (∀ p ∈ l, (processOne client p.2).2 = StepResult.ok) →
    ∃ calls, setupLoop client l = (calls, Sum.inl []) := by
  intro l
  induction l with
  | nil => exact fun _ => ⟨[], rfl⟩
  | cons p rest ih =>
    intro h
    obtain ⟨pAlias, d⟩ := p
    obtain ⟨calls2, h2⟩ := ih (fun q hq => h q (List.mem_cons_of_mem _ hq))
    have hp0 := h (pAlias, d) (List.mem_cons_self _ _)
    rcases hp : processOne client d with ⟨calls, sr⟩
    rw [hp] at hp0
    simp only at hp0
    subst hp0
    refine ⟨calls ++ calls2, ?_⟩
    rw [setupLoop_cons_ok client pAlias d rest calls hp, h2]

theorem setupLoop_nofail_append (client : Client) : ∀ (l1 l2 : PluginMap),
    (∀ p ∈ l1, ∀ m, (processOne client p.2).2 ≠ StepResult.fail m) →
    ∃ c1 u1,
      setupLoop client (l1 ++ l2)
        = (c1 ++ (setupLoop client l2).1,
           match (setupLoop client l2).2 with
           | Sum.inl u2 => Sum.inl (u1 ++ u2)
           | Sum.inr m => Sum.inr m)
      ∧ setupLoop client l1 = (c1, Sum.inl u1) := by
  intro l1
  induction l1 with
  | nil =>
    intro l2 _
    refine ⟨[], [], ?_, rfl⟩
    rcases hs : setupLoop client l2 with ⟨c2, r2⟩
    rcases r2 with u2 | m <;> simp [hs]
  | cons p rest ih =>
    intro l2 h
    obtain ⟨pAlias, d⟩ := p
    obtain ⟨c1, u1, heq, hval⟩ := ih l2 (fun q hq => h q (List.mem_cons_of_mem _ hq))
    have hp0 := h (pAlias, d) (List.mem_cons_self _ _)
    rcases hp : processOne client d with ⟨calls, sr⟩
    rw [hp] at hp0
    rcases sr with _ | _ | msg
    · refine ⟨calls ++ c1, u1, ?_, ?_⟩
      · rw [List.cons_append, setupLoop_cons_ok client pAlias d _ calls hp, heq,
          List.append_assoc]
      · rw [setupLoop_cons_ok client pAlias d rest calls hp, hval]
    · refine ⟨calls ++ c1, pAlias :: u1, ?_, ?_⟩
      · rw [List.cons_append, setupLoop_cons_skip client pAlias d _ calls hp, heq,
          List.append_assoc]
        rcases hs : setupLoop client l2 with ⟨c2, r2⟩
        rcases r2 with u2 | m <;> simp
      · rw [setupLoop_cons_skip client pAlias d rest calls hp, hval]
    · exact absurd rfl (hp0 msg)

theorem setupLoop_entry (client : Client) : ∀ (l : PluginMap) (calls : List Call)
    (un : List String) (a : String) (d : Descriptor),
    setupLoop client l = (calls, Sum.inl un) → (a, d) ∈ l →
    ((processOne client d).2 = StepResult.ok ∨
      ((processOne client d).2 = StepResult.skip ∧ a ∈ un))
    ∧ ∀ c ∈ (processOne client d).1, c ∈ calls := by
  intro l
  induction l with
  | nil => intro calls un a d _ hm; cases hm
  | cons p rest ih =>
    intro calls un a d h hm
    obtain ⟨pAlias, e⟩ := p
    rcases hp : processOne client e with ⟨pcalls, sr⟩
    rcases sr with _ | _ | msg
    · rw [setupLoop_cons_ok client pAlias e rest pcalls hp] at h
      rcases hr : setupLoop client rest with ⟨cr, rr⟩
      rw [hr] at h
      have h1 : pcalls ++ cr = calls := congrArg Prod.fst h
      have h2 : rr = Sum.inl un := congrArg Prod.snd h
      subst h1
      subst h2
      rcases List.mem_cons.mp hm with heq | hmem
      · injection heq with h3 h4
        subst h3
        subst h4
        refine ⟨Or.inl (by rw [hp]), ?_⟩
        intro c hc
        rw [hp] at hc
        exact List.mem_append_left _ hc
      · have hrec := ih cr un a d hr hmem
        exact ⟨hrec.1, fun c hc => List.mem_append_right _ (hrec.2 c hc)⟩
    · rw [setupLoop_cons_skip client pAlias e rest pcalls hp] at h
      rcases hr : setupLoop client rest with ⟨cr, rr⟩
      rw [hr] at h
      rcases rr with ur | mr
      · have h1 : pcalls ++ cr = calls := congrArg Prod.fst h
        have h2 : (Sum.inl (pAlias :: ur) : List String ⊕ String) = Sum.inl un :=
          congrArg Prod.snd h
        have h3 : pAlias :: ur = un := by injection h2
        subst h1
        subst h3
        rcases List.mem_cons.mp hm with heq | hmem
        · injection heq with h4 h5
          subst h4
          subst h5
          refine ⟨Or.inr ⟨by rw [hp], List.mem_cons_self _ _⟩, ?_⟩
          intro c hc
          rw [hp] at hc
          exact List.mem_append_left _ hc
        · have hrec := ih cr ur a d hr hmem
          refine ⟨?_, fun c hc => List.mem_append_right _ (hrec.2 c hc)⟩
          rcases hrec.1 with hok | ⟨hskip, hmem2⟩
          · exact Or.inl hok
          · exact Or.inr ⟨hskip, List.mem_cons_of_mem _ hmem2⟩
      · have h2 : (Sum.inr mr : List String ⊕ String) = Sum.inl un := congrArg Prod.snd h
        simp at h2
    · rw [setupLoop_cons_fail client pAlias e rest pcalls msg hp] at h
      have h2 : (Sum.inr msg : List String ⊕ String) = Sum.inl un := congrArg Prod.snd h
      simp at h2

theorem writeStateCalls_append (t1 t2 : List Call) :
    writeStateCalls (t1 ++ t2) = writeStateCalls t1 ++ writeStateCalls t2 := by
  simp [writeStateCalls, List.filterMap_append]

theorem writeStateCalls_nil_of (t : List Call) (h : ∀ m, Call.writeState m ∉ t) :
    writeStateCalls t = [] := by
  rw [writeStateCalls, List.filterMap_eq_nil_iff]
  intro c hc
  cases c with
  | cleanArchives m => rfl
  | download mn v => rfl
  | check mn v hsh => rfl
  | unzip mn v => rfl
  | resetAll => rfl
  | writeState m => exact absurd hc (h m)

/-! Claim theorems. -/

/-- Claim C4: on any reference mapping on which validation reports a
violation, SetupRemotePlugins returns the wrapped configuration-invalid
error and performs no Client call at all (the call trace is empty). -/
theorem claim_C4_validation_aborts_before_io (client : Client) (plugins : PluginMap)
    (err : String) (h : checkRemotePluginsConfiguration plugins = some err) :
    (SetupRemotePlugins client plugins).result = some ("invalid configuration: " ++ err)
    ∧ (SetupRemotePlugins client plugins).trace = [] := by
  simp [SetupRemotePlugins, h]

/-- Witness for C4 at a mapping with two entries sharing module name foo. -/
theorem claim_C4_witness :
    checkRemotePluginsConfiguration mapDup = some (dupMsg "foo")
    ∧ ((SetupRemotePlugins okClient mapDup).result
        = some ("invalid configuration: " ++ dupMsg "foo")
      ∧ (SetupRemotePlugins okClient mapDup).trace = []) :=
  ⟨by decide, claim_C4_validation_aborts_before_io okClient mapDup (dupMsg "foo") (by decide)⟩

/-- Claim C10: on the nil (empty) mapping the pipeline is not a no-op:
validation succeeds, CleanArchives is still invoked with the nil mapping,
and (when it succeeds) WriteState is still invoked with the nil mapping. -/
theorem claim_C10_nil_mapping_still_writes (client : Client)
    (h : client.cleanArchives [] = none) :
    checkRemotePluginsConfiguration [] = none
    ∧ Call.cleanArchives [] ∈ (SetupRemotePlugins client []).trace
    ∧ Call.writeState [] ∈ (SetupRemotePlugins client []).trace := by
  refine ⟨rfl, ?_, ?_⟩ <;>
  · rcases hw : client.writeState [] with _ | e <;>
      simp [SetupRemotePlugins, h, hw, checkRemotePluginsConfiguration, checkErrs, checkLoop,
        setupLoop]

/-- Witness for C10 at the all-success Client. -/
theorem claim_C10_witness :
    okClient.cleanArchives [] = none
    ∧ (checkRemotePluginsConfiguration [] = none
      ∧ Call.cleanArchives [] ∈ (SetupRemotePlugins okClient []).trace
      ∧ Call.writeState [] ∈ (SetupRemotePlugins okClient []).trace) :=
  ⟨rfl, claim_C10_nil_mapping_still_writes okClient rfl⟩

/-- Claim C5: when an entry triggers the name-shape violation or (shape being
fine) the duplicate-module violation, validation appends exactly that entry's
messages and runs no further check for the entry (in particular the
uniqueness set is passed on unchanged), while the remaining entries are still
processed with all checks and the result aggregates every violation found. -/
theorem claim_C5_short_circuit_collect_all (uniq errs : List String) (pAlias : String)
    (d : Descriptor) (rest : PluginMap)
    (h : badShape d.ModuleName = true
      ∨ (badShape d.ModuleName = false ∧ d.ModuleName ∈ uniq)) :
    checkLoop uniq errs ((pAlias, d) :: rest)
      = checkLoop uniq
          (errs ++ entryMsgs pAlias d
            ++ [if badShape d.ModuleName then shapeMsg pAlias else dupMsg d.ModuleName]) rest
    ∧ (checkLoop uniq errs ((pAlias, d) :: rest)).1
      = errs ++ entryMsgs pAlias d
          ++ [if badShape d.ModuleName then shapeMsg pAlias else dupMsg d.ModuleName]
          ++ (checkLoop uniq [] rest).1 := by
  rcases h with hb | ⟨hb, hu⟩
  · rw [checkLoop_cons_shape _ _ _ _ _ hb]
    refine ⟨by simp [hb], ?_⟩
    rw [checkLoop_acc]
    simp [hb, List.append_assoc]
  · rw [checkLoop_cons_dup _ _ _ _ _ hb hu]
    refine ⟨by simp [hb], ?_⟩
    rw [checkLoop_acc]
    simp [hb, List.append_assoc]

/-- The bad-shape descriptor used by the C5 witness. -/
def dBad : Descriptor := ⟨"/bad", "v1", true⟩

/-- The sibling entry used by the C5 witness. -/
def restB : PluginMap := [("b", ⟨"", "", false⟩)]

/-- Witness for C5 at a name-shape-violating entry with a sibling entry. -/
theorem claim_C5_witness :
    (badShape dBad.ModuleName = true
      ∨ (badShape dBad.ModuleName = false ∧ dBad.ModuleName ∈ ([] : List String)))
    ∧ (checkLoop [] [] (("a", dBad) :: restB)
        = checkLoop []
            ([] ++ entryMsgs "a" dBad
              ++ [if badShape dBad.ModuleName then shapeMsg "a" else dupMsg dBad.ModuleName])
            restB
      ∧ (checkLoop [] [] (("a", dBad) :: restB)).1
        = [] ++ entryMsgs "a" dBad
            ++ [if badShape dBad.ModuleName then shapeMsg "a" else dupMsg dBad.ModuleName]
            ++ (checkLoop [] [] restB).1) :=
  ⟨Or.inl (by decide),
   claim_C5_short_circuit_collect_all [] [] "a" dBad restB (Or.inl (by decide))⟩

/-- Claim C9: in a mapping with two empty-module-name entries, the empty name
passes the name-shape check and is entered into the uniqueness set, so
validation reports a missing-name violation for each entry and a
duplicate-module violation for the empty name at the later entry. -/
theorem claim_C9_empty_name_duplicate (pre mid post : PluginMap) (a b : String)
    (d1 d2 : Descriptor) (h1 : d1.ModuleName = "") (h2 : d2.ModuleName = "") :
    missingNameMsg a ∈ checkErrs (pre ++ (a, d1) :: (mid ++ (b, d2) :: post))
    ∧ missingNameMsg b ∈ checkErrs (pre ++ (a, d1) :: (mid ++ (b, d2) :: post))
    ∧ dupMsg "" ∈ checkErrs (pre ++ (a, d1) :: (mid ++ (b, d2) :: post))
    ∧ "" ∈ (checkLoop [] [] (pre ++ (a, d1) :: mid)).2 := by
  have hb2 : badShape d2.ModuleName = false := by rw [h2]; decide
  obtain ⟨u1, e1, hstep, hu1, he1⟩ :=
    checkLoop_step_emptyName (checkLoop [] [] pre).2 (checkLoop [] [] pre).1 a d1
      (mid ++ (b, d2) :: post) h1
  have hu2 : "" ∈ (checkLoop u1 e1 mid).2 := checkLoop_uniq_mono mid u1 e1 "" hu1
  have he2 : missingNameMsg a ∈ (checkLoop u1 e1 mid).1 := checkLoop_errs_mem mid u1 e1 _ he1
  have hD := checkLoop_cons_dup (checkLoop u1 e1 mid).2 (checkLoop u1 e1 mid).1 b d2 post hb2
    (by rw [h2]; exact hu2)
  have hfull : checkLoop [] [] (pre ++ (a, d1) :: (mid ++ (b, d2) :: post))
      = checkLoop (checkLoop u1 e1 mid).2
          ((checkLoop u1 e1 mid).1 ++ entryMsgs b d2 ++ [dupMsg d2.ModuleName]) post := by
    rw [checkLoop_append pre ((a, d1) :: (mid ++ (b, d2) :: post)) [] [], hstep,
      checkLoop_append mid ((b, d2) :: post) u1 e1, hD]
  have hE : checkErrs (pre ++ (a, d1) :: (mid ++ (b, d2) :: post))
      = (checkLoop (checkLoop u1 e1 mid).2
          ((checkLoop u1 e1 mid).1 ++ entryMsgs b d2 ++ [dupMsg d2.ModuleName]) post).1 :=
    congrArg Prod.fst hfull
  refine ⟨?_, ?_, ?_, ?_⟩
  · rw [hE]
    exact checkLoop_errs_mem _ _ _ _
      (List.mem_append_left _ (List.mem_append_left _ he2))
  · rw [hE]
    exact checkLoop_errs_mem _ _ _ _
      (List.mem_append_left _ (List.mem_append_right _ (by simp [entryMsgs, h2])))
  · rw [hE]
    refine checkLoop_errs_mem _ _ _ _ (List.mem_append_right _ ?_)
    rw [h2]
    exact List.mem_singleton_self _
  · obtain ⟨u1', e1', hstep', hu1', _⟩ :=
      checkLoop_step_emptyName (checkLoop [] [] pre).2 (checkLoop [] [] pre).1 a d1 mid h1
    rw [checkLoop_append pre ((a, d1) :: mid) [] [], hstep']
    exact checkLoop_uniq_mono mid u1' e1' "" hu1'

/-- The first empty-name descriptor used by the C9 witness. -/
def dEmpty1 : Descriptor := ⟨"", "v1", true⟩

/-- The second empty-name descriptor used by the C9 witness. -/
def dEmpty2 : Descriptor := ⟨"", "v2", false⟩

/-- Witness for C9 at a two-entry mapping with empty module names. -/
theorem claim_C9_witness :
    dEmpty1.ModuleName = "" ∧ dEmpty2.ModuleName = ""
    ∧ (missingNameMsg "a" ∈ checkErrs ([] ++ ("a", dEmpty1) :: ([] ++ ("b", dEmpty2) :: []))
      ∧ missingNameMsg "b" ∈ checkErrs ([] ++ ("a", dEmpty1) :: ([] ++ ("b", dEmpty2) :: []))
      ∧ dupMsg "" ∈ checkErrs ([] ++ ("a", dEmpty1) :: ([] ++ ("b", dEmpty2) :: []))
      ∧ "" ∈ (checkLoop [] [] ([] ++ ("a", dEmpty1) :: [])).2) :=
  ⟨rfl, rfl, claim_C9_empty_name_duplicate [] [] [] "a" "b" dEmpty1 dEmpty2 rfl rfl⟩

theorem setupLoop_un_source (client : Client) : ∀ (l : PluginMap) (calls : List Call)
    (un : List String) (x : String),
    setupLoop client l = (calls, Sum.inl un) → x ∈ un →
    ∃ d, (x, d) ∈ l ∧ (processOne client d).2 = StepResult.skip := by
  intro l
  induction l with
  | nil =>
    intro calls un x h hx
    have h2 : (Sum.inl ([] : List String) : List String ⊕ String) = Sum.inl un :=
      congrArg Prod.snd h
    have h3 : ([] : List String) = un := by injection h2
    rw [← h3] at hx
    cases hx
  | cons p rest ih =>
    intro calls un x h hx
    obtain ⟨pAlias, d⟩ := p
    rcases hp : processOne client d with ⟨pcalls, sr⟩
    rcases sr with _ | _ | msg
    · rw [setupLoop_cons_ok client pAlias d rest pcalls hp] at h
      rcases hr : setupLoop client rest with ⟨cr, rr⟩
      rw [hr] at h
      have h2 : rr = Sum.inl un := congrArg Prod.snd h
      subst h2
      obtain ⟨e, hmem, hskip⟩ := ih cr un x hr hx
      exact ⟨e, List.mem_cons_of_mem _ hmem, hskip⟩
    · rw [setupLoop_cons_skip client pAlias d rest pcalls hp] at h
      rcases hr : setupLoop client rest with ⟨cr, rr⟩
      rw [hr] at h
      rcases rr with ur | mr
      · have h2 : (Sum.inl (pAlias :: ur) : List String ⊕ String) = Sum.inl un :=
          congrArg Prod.snd h
        have h3 : pAlias :: ur = un := by injection h2
        rw [← h3] at hx
        rcases List.mem_cons.mp hx with heq | hmem
        · subst heq
          exact ⟨d, List.mem_cons_self _ _, by rw [hp]⟩
        · obtain ⟨e, hmem2, hskip⟩ := ih cr ur x hr hmem
          exact ⟨e, List.mem_cons_of_mem _ hmem2, hskip⟩
      · have h2 : (Sum.inr mr : List String ⊕ String) = Sum.inl un := congrArg Prod.snd h
        simp at h2
    · rw [setupLoop_cons_fail client pAlias d rest pcalls msg hp] at h
      have h2 : (Sum.inr msg : List String ⊕ String) = Sum.inl un := congrArg Prod.snd h
      simp at h2

/-- Claim C6 counterexample: the Go code deletes unavailable aliases from the
caller's map in place, so after a run in which the single non-required
reference fails to download, the caller's mapping is no longer what was
passed in. -/
theorem claim_C6_counterexample :
    (SetupRemotePlugins dlFailClient mapOpt).finalMap ≠ mapOpt := by decide

/-- Claim C6 (amended): the caller's mapping is unchanged by a run provided
no reference is skipped (no non-required reference fails a sub-step); in
general SetupRemotePlugins removes every unavailable alias from the caller's
mapping in place. -/
theorem claim_C6_amended_unchanged_when_no_skip (client : Client) (plugins : PluginMap)
    (h : ∀ p ∈ plugins, (processOne client p.2).2 ≠ StepResult.skip) :
    (SetupRemotePlugins client plugins).finalMap = plugins := by
  rcases hv : checkRemotePluginsConfiguration plugins with _ | err
  · rcases hc : client.cleanArchives plugins with _ | err
    · rcases hsl : setupLoop client plugins with ⟨calls, res⟩
      rcases res with un | msg
      · have hun : un = [] := by
          rcases un with _ | ⟨x, un'⟩
          · rfl
          · obtain ⟨e, hmem, hskip⟩ :=
              setupLoop_un_source client plugins calls (x :: un') x hsl
                (List.mem_cons_self _ _)
            exact absurd hskip (h (x, e) hmem)
        subst hun
        have hfilter : plugins.filter (fun p => !((([] : List String)).contains p.1))
            = plugins := List.filter_eq_self.mpr (fun p _ => rfl)
        rcases hw : client.writeState plugins with _ | err <;>
          simp [SetupRemotePlugins, hv, hc, hsl, hfilter, hw]
      · simp [SetupRemotePlugins, hv, hc, hsl]
    · simp [SetupRemotePlugins, hv, hc]
  · simp [SetupRemotePlugins, hv]

/-- Witness for the amended C6 at the all-success Client. -/
theorem claim_C6_witness :
    (∀ p ∈ mapReq, (processOne okClient p.2).2 ≠ StepResult.skip)
    ∧ (SetupRemotePlugins okClient mapReq).finalMap = mapReq :=
  ⟨by decide, claim_C6_amended_unchanged_when_no_skip okClient mapReq (by decide)⟩

/-- Claim C8: with an unchanged, fully-successful reference mapping, running
the remote pipeline twice persists the same state both times: each run makes
exactly one WriteState call, whose argument is the original mapping. -/
theorem claim_C8_idempotent_persisted_state (client : Client) (plugins : PluginMap)
    (hv : checkRemotePluginsConfiguration plugins = none)
    (hc : client.cleanArchives plugins = none)
    (hw : client.writeState plugins = none)
    (hok : ∀ p ∈ plugins, (processOne client p.2).2 = StepResult.ok) :
    (SetupRemotePlugins client plugins).result = none
    ∧ (SetupRemotePlugins client plugins).finalMap = plugins
    ∧ writeStateCalls (SetupRemotePlugins client plugins).trace = [plugins]
    ∧ writeStateCalls
        (SetupRemotePlugins client (SetupRemotePlugins client plugins).finalMap).trace
        = [plugins] := by
  obtain ⟨calls, hsl⟩ := setupLoop_all_ok client plugins hok
  have hfilter : plugins.filter (fun p => !((([] : List String)).contains p.1))
      = plugins := List.filter_eq_self.mpr (fun p _ => rfl)
  have hrun : SetupRemotePlugins client plugins
      = { result := none, finalMap := plugins,
          trace := Call.cleanArchives plugins :: (calls ++ [Call.writeState plugins]) } := by
    simp [SetupRemotePlugins, hv, hc, hsl, hfilter, hw]
  have hnil : writeStateCalls calls = [] := writeStateCalls_nil_of calls (fun m => by
    have hh := setupLoop_no_writeState client plugins m
    rw [hsl] at hh
    exact hh)
  have hwsc : writeStateCalls
      (Call.cleanArchives plugins :: (calls ++ [Call.writeState plugins])) = [plugins] := by
    have h1 : writeStateCalls (Call.cleanArchives plugins :: (calls ++ [Call.writeState plugins]))
        = writeStateCalls (calls ++ [Call.writeState plugins]) := rfl
    rw [h1, writeStateCalls_append, hnil]
    rfl
  refine ⟨by rw [hrun], by rw [hrun], by rw [hrun]; exact hwsc, ?_⟩
  have hfm : (SetupRemotePlugins client plugins).finalMap = plugins := by rw [hrun]
  rw [hfm, hrun]
  exact hwsc

/-- Witness for C8 at the all-success Client and a one-entry mapping. -/
theorem claim_C8_witness :
    checkRemotePluginsConfiguration mapReq = none
    ∧ okClient.cleanArchives mapReq = none
    ∧ okClient.writeState mapReq = none
    ∧ (∀ p ∈ mapReq, (processOne okClient p.2).2 = StepResult.ok)
    ∧ ((SetupRemotePlugins okClient mapReq).result = none
      ∧ (SetupRemotePlugins okClient mapReq).finalMap = mapReq
      ∧ writeStateCalls (SetupRemotePlugins okClient mapReq).trace = [mapReq]
      ∧ writeStateCalls
          (SetupRemotePlugins okClient (SetupRemotePlugins okClient mapReq).finalMap).trace
          = [mapReq]) :=
  ⟨by decide, rfl, rfl, by decide,
   claim_C8_idempotent_persisted_state okClient mapReq (by decide) rfl rfl (by decide)⟩

/-- Claim C2: when the pipeline reaches a required reference whose Download
call fails (validation and archive cleanup succeeded, and no earlier
reference aborted the loop), SetupRemotePlugins invokes ResetAll, returns
the wrapped download error naming the module, and never invokes
WriteState. -/
theorem claim_C2_required_download_failure (client : Client) (pre post : PluginMap)
    (a e : String) (d : Descriptor)
    (hv : checkRemotePluginsConfiguration (pre ++ (a, d) :: post) = none)
    (hc : client.cleanArchives (pre ++ (a, d) :: post) = none)
    (hpre : ∀ p ∈ pre, ∀ m, (processOne client p.2).2 ≠ StepResult.fail m)
    (hreq : d.Required = true)
    (hd : client.download d.ModuleName d.Version = Except.error e) :
    (SetupRemotePlugins client (pre ++ (a, d) :: post)).result
        = some ("unable to download plugin " ++ d.ModuleName ++ ": " ++ e)
    ∧ Call.resetAll ∈ (SetupRemotePlugins client (pre ++ (a, d) :: post)).trace
    ∧ writeStateCalls (SetupRemotePlugins client (pre ++ (a, d) :: post)).trace = [] := by
  have hpo := processOne_dl_fail_req client d e hd hreq
  have hl2 : setupLoop client ((a, d) :: post)
      = ([Call.download d.ModuleName d.Version, Call.resetAll],
         Sum.inr ("unable to download plugin " ++ d.ModuleName ++ ": " ++ e)) :=
    setupLoop_cons_fail client a d post _ _ hpo
  obtain ⟨c1, u1, heq, hval⟩ := setupLoop_nofail_append client pre ((a, d) :: post) hpre
  rw [hl2] at heq
  have heq' : setupLoop client (pre ++ (a, d) :: post)
      = (c1 ++ [Call.download d.ModuleName d.Version, Call.resetAll],
         Sum.inr ("unable to download plugin " ++ d.ModuleName ++ ": " ++ e)) := heq
  have hrun : SetupRemotePlugins client (pre ++ (a, d) :: post)
      = { result := some ("unable to download plugin " ++ d.ModuleName ++ ": " ++ e),
          finalMap := pre ++ (a, d) :: post,
          trace := Call.cleanArchives (pre ++ (a, d) :: post)
            :: (c1 ++ [Call.download d.ModuleName d.Version, Call.resetAll]) } := by
    simp [SetupRemotePlugins, hv, hc, heq']
  rw [hrun]
  refine ⟨rfl, by simp, ?_⟩
  refine writeStateCalls_nil_of _ (fun m hmem => ?_)
  simp only [List.mem_cons, List.mem_append] at hmem
  rcases hmem with h1 | (h1 | h1)
  · cases h1
  · have hh := setupLoop_no_writeState client pre m
    rw [hval] at hh
    exact hh h1
  · rcases h1 with h1 | h1
    · cases h1
    · rcases h1 with h1 | h1
      · cases h1
      · cases h1

/-- Witness for C2 at the failing-download Client and a one-entry mapping. -/
theorem claim_C2_witness :
    checkRemotePluginsConfiguration ([] ++ ("a", ⟨"foo", "v1", true⟩) :: []) = none
    ∧ dlFailClient.cleanArchives ([] ++ ("a", ⟨"foo", "v1", true⟩) :: []) = none
    ∧ (∀ p ∈ ([] : PluginMap), ∀ m, (processOne dlFailClient p.2).2 ≠ StepResult.fail m)
    ∧ (⟨"foo", "v1", true⟩ : Descriptor).Required = true
    ∧ dlFailClient.download "foo" "v1" = Except.error "boom"
    ∧ ((SetupRemotePlugins dlFailClient ([] ++ ("a", ⟨"foo", "v1", true⟩) :: [])).result
        = some ("unable to download plugin " ++ "foo" ++ ": " ++ "boom")
      ∧ Call.resetAll
          ∈ (SetupRemotePlugins dlFailClient ([] ++ ("a", ⟨"foo", "v1", true⟩) :: [])).trace
      ∧ writeStateCalls
          (SetupRemotePlugins dlFailClient ([] ++ ("a", ⟨"foo", "v1", true⟩) :: [])).trace
          = []) :=
  ⟨by decide, rfl, fun p hp => absurd hp (List.not_mem_nil p), rfl, rfl,
   claim_C2_required_download_failure dlFailClient [] [] "a" "boom" ⟨"foo", "v1", true⟩
     (by decide) rfl (fun p hp => absurd hp (List.not_mem_nil p)) rfl rfl⟩

/-- Claim C3: when exactly one non-required reference fails its integrity
check and every other step succeeds, SetupRemotePlugins returns success and
that reference's alias is absent both from the mapping after the run and
from the (single) mapping passed to WriteState. -/
theorem claim_C3_optional_check_failure_skipped (client : Client) (pre post : PluginMap)
    (a hash e : String) (d : Descriptor)
    (hv : checkRemotePluginsConfiguration (pre ++ (a, d) :: post) = none)
    (hc : client.cleanArchives (pre ++ (a, d) :: post) = none)
    (hw : ∀ m, client.writeState m = none)
    (hok : ∀ p ∈ pre ++ post, (processOne client p.2).2 = StepResult.ok)
    (hreq : d.Required = false)
    (hd : client.download d.ModuleName d.Version = Except.ok hash)
    (hchk : client.check d.ModuleName d.Version hash = some e) :
    (SetupRemotePlugins client (pre ++ (a, d) :: post)).result = none
    ∧ a ∉ (SetupRemotePlugins client (pre ++ (a, d) :: post)).finalMap.map Prod.fst
    ∧ writeStateCalls (SetupRemotePlugins client (pre ++ (a, d) :: post)).trace
        = [(SetupRemotePlugins client (pre ++ (a, d) :: post)).finalMap] := by
  have hpo := processOne_check_fail_opt client d hash e hd hchk hreq
  have hokpre : ∀ p ∈ pre, (processOne client p.2).2 = StepResult.ok :=
    fun p hp => hok p (List.mem_append_left _ hp)
  have hokpost : ∀ p ∈ post, (processOne client p.2).2 = StepResult.ok :=
    fun p hp => hok p (List.mem_append_right _ hp)
  obtain ⟨cpost, hpost⟩ := setupLoop_all_ok client post hokpost
  have hl2 : setupLoop client ((a, d) :: post)
      = ([Call.download d.ModuleName d.Version, Call.check d.ModuleName d.Version hash,
          Call.resetAll] ++ cpost, Sum.inl [a]) := by
    rw [setupLoop_cons_skip client a d post _ hpo, hpost]
  obtain ⟨c1, u1, heq, hval⟩ := setupLoop_nofail_append client pre ((a, d) :: post)
    (fun p hp m => by rw [hokpre p hp]; simp)
  obtain ⟨cpre, hpreval⟩ := setupLoop_all_ok client pre hokpre
  have hu1 : u1 = [] := by
    rw [hval] at hpreval
    have h5 : (Sum.inl u1 : List String ⊕ String) = Sum.inl [] := congrArg Prod.snd hpreval
    injection h5
  subst hu1
  rw [hl2] at heq
  have heq' : setupLoop client (pre ++ (a, d) :: post)
      = (c1 ++ ([Call.download d.ModuleName d.Version, Call.check d.ModuleName d.Version hash,
          Call.resetAll] ++ cpost), Sum.inl [a]) := heq
  have hrun : SetupRemotePlugins client (pre ++ (a, d) :: post)
      = { result := none,
          finalMap := (pre ++ (a, d) :: post).filter
            (fun p => !((([a] : List String)).contains p.1)),
          trace := Call.cleanArchives (pre ++ (a, d) :: post)
            :: ((c1 ++ ([Call.download d.ModuleName d.Version,
                 Call.check d.ModuleName d.Version hash, Call.resetAll] ++ cpost))
              ++ [Call.writeState ((pre ++ (a, d) :: post).filter
                    (fun p => !((([a] : List String)).contains p.1)))]) } := by
    simp [SetupRemotePlugins, hv, hc, heq', hw]
  rw [hrun]
  refine ⟨rfl, ?_, ?_⟩
  · intro hmem
    obtain ⟨p, hp, hfst⟩ := List.mem_map.mp hmem
    obtain ⟨hpl, hflt⟩ := List.mem_filter.mp hp
    have hcont : ([a] : List String).contains p.1 = true :=
      (contains_iff_mem_str _ _).mpr (by rw [hfst]; exact List.mem_singleton_self a)
    rw [hcont] at hflt
    simp at hflt
  · have hn1 : writeStateCalls c1 = [] := writeStateCalls_nil_of c1 (fun m => by
      have hh := setupLoop_no_writeState client pre m
      rw [hval] at hh
      exact hh)
    have hn2 : writeStateCalls cpost = [] := writeStateCalls_nil_of cpost (fun m => by
      have hh := setupLoop_no_writeState client post m
      rw [hpost] at hh
      exact hh)
    have h1 : ∀ (t : List Call), writeStateCalls (Call.cleanArchives (pre ++ (a, d) :: post) :: t)
        = writeStateCalls t := fun t => rfl
    rw [h1, writeStateCalls_append, writeStateCalls_append, writeStateCalls_append, hn1, hn2]
    rfl

/-- The succeeding sibling descriptor used by the C3 witness. -/
def dOkX : Descriptor := ⟨"okmod", "v1", true⟩

/-- The non-required descriptor whose integrity check fails, used by the C3
witness. -/
def dBadCheck : Descriptor := ⟨"bad", "v1", false⟩

/-- Witness for C3 at the failing-check Client and a two-entry mapping. -/
theorem claim_C3_witness :
    checkRemotePluginsConfiguration ([("x", dOkX)] ++ ("a", dBadCheck) :: []) = none
    ∧ checkFailClient.cleanArchives ([("x", dOkX)] ++ ("a", dBadCheck) :: []) = none
    ∧ (∀ m, checkFailClient.writeState m = none)
    ∧ (∀ p ∈ [("x", dOkX)] ++ ([] : PluginMap),
        (processOne checkFailClient p.2).2 = StepResult.ok)
    ∧ dBadCheck.Required = false
    ∧ checkFailClient.download dBadCheck.ModuleName dBadCheck.Version = Except.ok "h1"
    ∧ checkFailClient.check dBadCheck.ModuleName dBadCheck.Version "h1" = some "corrupt"
    ∧ ((SetupRemotePlugins checkFailClient
          ([("x", dOkX)] ++ ("a", dBadCheck) :: [])).result = none
      ∧ "a" ∉ (SetupRemotePlugins checkFailClient
          ([("x", dOkX)] ++ ("a", dBadCheck) :: [])).finalMap.map Prod.fst
      ∧ writeStateCalls (SetupRemotePlugins checkFailClient
          ([("x", dOkX)] ++ ("a", dBadCheck) :: [])).trace
          = [(SetupRemotePlugins checkFailClient
              ([("x", dOkX)] ++ ("a", dBadCheck) :: [])).finalMap]) :=
  ⟨by decide, rfl, fun _ => rfl, by decide, rfl, rfl, by decide,
   claim_C3_optional_check_failure_skipped checkFailClient [("x", dOkX)] [] "a" "h1"
     "corrupt" dBadCheck (by decide) rfl (fun _ => rfl) (by decide) rfl rfl
     (by decide)⟩

/-- Claim C1: whenever SetupRemotePlugins returns success, every entry
remaining in the retained mapping had its Download, Check and Unzip calls
succeed during the run (the calls appear in the trace with the downloaded
hash), and WriteState was called exactly once, with exactly that surviving
mapping. -/
theorem claim_C1_success_postcondition (client : Client) (plugins : PluginMap)
    (h : (SetupRemotePlugins client plugins).result = none) :
    (∀ p ∈ (SetupRemotePlugins client plugins).finalMap,
      ∃ hash, client.download p.2.ModuleName p.2.Version = Except.ok hash
        ∧ client.check p.2.ModuleName p.2.Version hash = none
        ∧ client.unzip p.2.ModuleName p.2.Version = none
        ∧ Call.download p.2.ModuleName p.2.Version ∈ (SetupRemotePlugins client plugins).trace
        ∧ Call.check p.2.ModuleName p.2.Version hash ∈ (SetupRemotePlugins client plugins).trace
        ∧ Call.unzip p.2.ModuleName p.2.Version ∈ (SetupRemotePlugins client plugins).trace)
    ∧ writeStateCalls (SetupRemotePlugins client plugins).trace
        = [(SetupRemotePlugins client plugins).finalMap] := by
  rcases hv : checkRemotePluginsConfiguration plugins with _ | err
  · rcases hc : client.cleanArchives plugins with _ | err
    · rcases hsl : setupLoop client plugins with ⟨calls, res⟩
      rcases res with un | msg
      · rcases hw : client.writeState (plugins.filter (fun p => !(un.contains p.1)))
            with _ | err
        · have hrun : SetupRemotePlugins client plugins
              = { result := none,
                  finalMap := plugins.filter (fun p => !(un.contains p.1)),
                  trace := Call.cleanArchives plugins
                    :: (calls ++ [Call.writeState
                          (plugins.filter (fun p => !(un.contains p.1)))]) } := by
            simp only [SetupRemotePlugins, hv, hc, hsl, hw]
            rfl
          rw [hrun]
          constructor
          · intro p hp
            obtain ⟨hpin, hpflt⟩ := List.mem_filter.mp hp
            have hnotun : p.1 ∉ un := by
              intro hmem
              rw [(contains_iff_mem_str un p.1).mpr hmem] at hpflt
              simp at hpflt
            obtain ⟨hstep, hcalls⟩ :=
              setupLoop_entry client plugins calls un p.1 p.2 hsl hpin
            have hok : (processOne client p.2).2 = StepResult.ok := by
              rcases hstep with hok | ⟨_, hmem⟩
              · exact hok
              · exact absurd hmem hnotun
            obtain ⟨hash, hd, hchk, hu, hcallseq⟩ := processOne_ok_calls client p.2 hok
            have hdl : Call.download p.2.ModuleName p.2.Version ∈ calls :=
              hcalls _ (by rw [hcallseq]; simp)
            have hck : Call.check p.2.ModuleName p.2.Version hash ∈ calls :=
              hcalls _ (by rw [hcallseq]; simp)
            have huz : Call.unzip p.2.ModuleName p.2.Version ∈ calls :=
              hcalls _ (by rw [hcallseq]; simp)
            exact ⟨hash, hd, hchk, hu,
              List.mem_cons_of_mem _ (List.mem_append_left _ hdl),
              List.mem_cons_of_mem _ (List.mem_append_left _ hck),
              List.mem_cons_of_mem _ (List.mem_append_left _ huz)⟩
          · have hnil : writeStateCalls calls = [] := writeStateCalls_nil_of calls (fun m => by
              have hh := setupLoop_no_writeState client plugins m
              rw [hsl] at hh
              exact hh)
            have h1 : ∀ (t : List Call), writeStateCalls (Call.cleanArchives plugins :: t)
                = writeStateCalls t := fun t => rfl
            rw [h1, writeStateCalls_append, hnil]
            rfl
        · exfalso
          simp only [SetupRemotePlugins, hv, hc, hsl, hw] at h
          cases h
      · exfalso
        simp [SetupRemotePlugins, hv, hc, hsl] at h
    · exfalso
      simp [SetupRemotePlugins, hv, hc] at h
  · exfalso
    simp [SetupRemotePlugins, hv] at h

/-- Witness for C1 at the all-success Client and a one-entry mapping. -/
theorem claim_C1_witness :
    (SetupRemotePlugins okClient mapReq).result = none
    ∧ ((∀ p ∈ (SetupRemotePlugins okClient mapReq).finalMap,
        ∃ hash, okClient.download p.2.ModuleName p.2.Version = Except.ok hash
          ∧ okClient.check p.2.ModuleName p.2.Version hash = none
          ∧ okClient.unzip p.2.ModuleName p.2.Version = none
          ∧ Call.download p.2.ModuleName p.2.Version
              ∈ (SetupRemotePlugins okClient mapReq).trace
          ∧ Call.check p.2.ModuleName p.2.Version hash
              ∈ (SetupRemotePlugins okClient mapReq).trace
          ∧ Call.unzip p.2.ModuleName p.2.Version
              ∈ (SetupRemotePlugins okClient mapReq).trace)
      ∧ writeStateCalls (SetupRemotePlugins okClient mapReq).trace
          = [(SetupRemotePlugins okClient mapReq).finalMap]) :=
  ⟨by decide, claim_C1_success_postcondition okClient mapReq (by decide)⟩

theorem mem_ite_nil {α : Type} {c : Prop} [Decidable c] (a : α) (l : List α) :
    (a ∈ (if c then l else ([] : List α))) ↔ c ∧ a ∈ l := by
  by_cases h : c <;> simp [h]

theorem countP_ite_nil {α : Type} {c : Prop} [Decidable c] (p : α → Bool) (l : List α) :
    (List.countP p (if c then l else ([] : List α))) = if c then List.countP p l else 0 := by
  by_cases h : c <;> simp [h]

/-- Claim C7: allowed runtimes are type-dependent: a middleware manifest
accepts interpreted, sandboxed-bytecode or empty, a provider manifest only
interpreted or empty, anything else is an unsupported-runtime violation; in
particular a provider manifest with the sandboxed-bytecode runtime yields
exactly one unsupported-runtime violation while the display-name, summary
and test-data checks still run on the remaining fields. -/
theorem claim_C7_type_dependent_runtimes (mod imp dn sm : String) (td : Option Unit)
    (m : Manifest) :
    (ManifestViolation.unsupportedRuntime mod m.Runtime ∈ checkLoadedManifest mod m ↔
      ((m.mType = typeMiddleware ∧ m.Runtime ≠ runtimeYaegi ∧ m.Runtime ≠ runtimeWasm
          ∧ m.Runtime ≠ "")
        ∨ (m.mType = typeProvider ∧ m.Runtime ≠ runtimeYaegi ∧ m.Runtime ≠ "")))
    ∧ (checkLoadedManifest mod ⟨typeProvider, runtimeWasm, imp, dn, sm, td⟩).countP
        isRuntimeViolation = 1
    ∧ (ManifestViolation.missingDisplayName mod
        ∈ checkLoadedManifest mod ⟨typeProvider, runtimeWasm, imp, dn, sm, td⟩ ↔ dn = "")
    ∧ (ManifestViolation.missingSummary mod
        ∈ checkLoadedManifest mod ⟨typeProvider, runtimeWasm, imp, dn, sm, td⟩ ↔ sm = "")
    ∧ (ManifestViolation.missingTestData mod
        ∈ checkLoadedManifest mod ⟨typeProvider, runtimeWasm, imp, dn, sm, td⟩ ↔ td = none) := by
  have hyg : (⟨typeProvider, runtimeWasm, imp, dn, sm, td⟩ : Manifest).IsYaegiPlugin
      = false := by simp [Manifest.IsYaegiPlugin, runtimeWasm, runtimeYaegi]
  refine ⟨?_, ?_, ?_, ?_, ?_⟩
  · by_cases hm : m.mType = typeMiddleware
    · simp [checkLoadedManifest, hm, mem_ite_nil, typeMiddleware, typeProvider,
        Manifest.IsYaegiPlugin]
    · by_cases hp : m.mType = typeProvider
      · simp [checkLoadedManifest, hm, hp, mem_ite_nil, typeMiddleware, typeProvider,
          Manifest.IsYaegiPlugin]
      · simp [checkLoadedManifest, hm, hp, mem_ite_nil, Manifest.IsYaegiPlugin]
  · simp [checkLoadedManifest, hyg, countP_ite_nil, List.countP_append, List.countP_cons,
      isRuntimeViolation, typeProvider, typeMiddleware, runtimeWasm, runtimeYaegi]
  · simp [checkLoadedManifest, hyg, mem_ite_nil, typeProvider, typeMiddleware,
      runtimeWasm, runtimeYaegi]
  · simp [checkLoadedManifest, hyg, mem_ite_nil, typeProvider, typeMiddleware,
      runtimeWasm, runtimeYaegi]
  · simp [checkLoadedManifest, hyg, mem_ite_nil, typeProvider, typeMiddleware,
      runtimeWasm, runtimeYaegi]
